import Mathlib

/-!
Verification of `check-windows-eventlog` (check-windows-eventlog.go).

This file gives a shallow embedding of the program's core logic and proves
the specification claims about it:

* the event-ID range parser (`idRangeList`, lines 76-110 of the source);
* the ID-range filter evaluated per record (lines 374-396);
* the per-record filter pipeline and tallying (lines 365-478);
* the incremental scan driver `searchLog` (lines 275-492), with the
  bootstrap / scanning-window / rotation-recovery logic and its read-error
  handling, instrumented with a ghost list of visited record numbers;
* the aggregation and threshold logic of `run` (lines 176-214);
* the persisted-offset state store `getLastOffset` / `writeLastOffset`
  (lines 507-529).

Machine integers (`uint32`) are modelled as `Nat` with explicit `% 2^32`
where wrap-around matters; OS calls (opening a log, reading a record,
resolving a message, writing the state file) are modelled as explicit
environment data so that the control flow of the Go code can be mirrored
faithfully.
-/

/-- `2^32`, the modulus of Go's `uint32` arithmetic. -/
def U32 : Nat := 4294967296

/-- `idRange` (source lines 36-40): an inclusive event-ID interval with an
optional negation marker (`bang`, from the leading `!`). Field values are
`uint32` (always `< U32`, enforced by the parser's `ParseUint(_, 10, 32)`). -/
structure IdRange where
  lo : Nat
  hi : Nat
  bang : Bool
  deriving DecidableEq, Repr

/-! ### The event-ID spec parser (`idRangeList`, lines 76-110) -/

/-- `strings.Split` on a single-character separator, on char lists.
`Go`'s `strings.Split("", sep)` is `[""]`, matched by the base case. -/
def splitOnChar (sep : Char) : List Char → List (List Char)
  | [] => [[]]
  | c :: rest =>
    match splitOnChar sep rest with
    | [] => [[]]
    | g :: gs => if c = sep then [] :: g :: gs else (c :: g) :: gs

/-- ASCII whitespace recognised by `strings.TrimSpace`. -/
def isSpaceGo (c : Char) : Bool :=
  c = ' ' || c = '\t' || c = '\n' || c = '\x0b' || c = '\x0c' || c = '\r'

/-- `strings.TrimSpace`: drop whitespace from both ends. -/
def trimSpace (l : List Char) : List Char :=
  ((l.dropWhile isSpaceGo).reverse.dropWhile isSpaceGo).reverse

/-- A character matched by the `[0-9]` class of `rid1`/`rid2`. -/
def isDigitChar (c : Char) : Bool :=
  48 ≤ c.toNat && c.toNat ≤ 57

/-- Whether `rid1 = ^([0-9]+)$` matches the whole token. -/
def matchRid1 (l : List Char) : Bool :=
  !l.isEmpty && l.all isDigitChar

/-- Whether `rid2 = ^([0-9]+)-([0-9]+)$` matches, returning the two
capture groups. A token matches iff it splits at dashes into exactly two
nonempty digit runs. -/
def matchRid2 (l : List Char) : Option (List Char × List Char) :=
  match splitOnChar '-' l with
  | [a, b] => if matchRid1 a && matchRid1 b then some (a, b) else none
  | _ => none

/-- Numeric value of a digit run (the value `strconv.ParseUint` computes). -/
def parseDigits (l : List Char) : Nat :=
  l.foldl (fun a c => a * 10 + (c.toNat - 48)) 0

/-- `strconv.ParseUint(s, 10, 32)` on an all-digit token: fails iff the
value does not fit in 32 bits. -/
def parseUint32 (l : List Char) : Except String Nat :=
  let n := parseDigits l
  if n < U32 then .ok n else .error "invalid id list: value out of range"

/-- Body of the per-token parse (lines 86-107), after the `!` prefix has
been stripped: single number `a` gives `{lo=a, hi=a}`, pair `a-b` is
normalized so that `lo ≤ hi`; anything else is `invalid id list`. -/
def parseBody (t : List Char) (bang : Bool) : Except String IdRange :=
  if matchRid1 t then
    match parseUint32 t with
    | .error e => .error e
    | .ok n => .ok ⟨n, n, bang⟩
  else
    match matchRid2 t with
    | some (a, b) =>
      match parseUint32 a, parseUint32 b with
      | .ok id1, .ok id2 =>
        if id1 > id2 then .ok ⟨id2, id1, bang⟩ else .ok ⟨id1, id2, bang⟩
      | .error e, _ => .error e
      | .ok _, .error e => .error e
    | none => .error "invalid id list"

/-- Lines 82-85: `bang := strings.HasPrefix(t, "!")`, and the `!` is
stripped when present. -/
def stripBang : List Char → Bool × List Char
  | '!' :: t => (true, t)
  | t => (false, t)

/-- One token of the comma-separated event-ID spec (lines 81-107):
trim spaces, strip an optional leading `!` (negation marker), parse. -/
def parseToken (t0 : List Char) : Except String IdRange :=
  parseBody (stripBang (trimSpace t0)).2 (stripBang (trimSpace t0)).1

/-- The loop of `idRangeList` (lines 80-108): parse every token in order,
aborting at the first malformed one. -/
def idRangeTokens : List (List Char) → Except String (List IdRange)
  | [] => .ok []
  | t :: rest =>
    match parseToken t with
    | .error e => .error e
    | .ok r =>
      match idRangeTokens rest with
      | .error e => .error e
      | .ok rs => .ok (r :: rs)

/-- `idRangeList` (lines 76-110): split the `--event-id` spec on commas and
parse each token. -/
def idRangeList (s : String) : Except String (List IdRange) :=
  idRangeTokens (splitOnChar ',' s.toList)

/-- Shape of a well-formed token as the spec describes it: after trimming
and stripping an optional `!`, the token is a decimal number or a
dash-separated pair of decimal numbers. -/
def tokenShape (t0 : List Char) : Bool :=
  let t := (stripBang (trimSpace t0)).2
  matchRid1 t || (matchRid2 t).isSome

/-! ### The ID-range filter (lines 374-396) -/

/-- The filter loop of lines 377-392 over the configured `IdRange` list:
`found` and `exactSeen` mirror the Go locals `found` and `exact`. -/
def idFilterLoop (eventID : Nat) : List IdRange → Bool → Bool → Bool
  | [], found, _ => found
  | idr :: rest, found, exactSeen =>
    if !idr.bang then
      idFilterLoop eventID rest
        (if idr.lo ≤ eventID && eventID ≤ idr.hi then true else found) true
    else
      if idr.lo ≤ eventID && eventID ≤ idr.hi then
        idFilterLoop eventID rest false exactSeen
      else
        idFilterLoop eventID rest (if !exactSeen then true else found) exactSeen

/-- The record passes the ID filter iff the loop ends with `found = true`.
The caller has already masked the event ID (line 376). -/
def idFilter (l : List IdRange) (eventID : Nat) : Bool :=
  idFilterLoop eventID l false false

/-- Modelled from the spec: one step of the ID-range evaluation as §4.5 of
the specification words it, carrying `(found, sawPositiveRange)`. This is
the refinement-comparison definition, written from the spec, to be proved
equal to the source-derived `idFilter`. -/
def specIdStep (id : Nat) (st : Bool × Bool) (r : IdRange) : Bool × Bool :=
  if r.bang = false then
    (if r.lo ≤ id ∧ id ≤ r.hi then true else st.1, true)
  else if r.lo ≤ id ∧ id ≤ r.hi then
    (false, st.2)
  else if st.2 = false then
    (true, st.2)
  else st

/-- Modelled from the spec: mask the event ID to its lower 16 bits
(`65536 = 2^16`), then evaluate the range list in order starting from
`found = false`, `sawPositiveRange = false`; the record passes iff the
evaluation ends with `found = true`. -/
def specIdPass (l : List IdRange) (eventID : Nat) : Bool :=
  (l.foldl (specIdStep (eventID % 65536)) (false, false)).1

/-! ### Data model of the scan driver (`searchLog`, lines 275-492) -/

/-- The fields of a decoded `EVENTLOGRECORD` that the scan uses, plus the
source name decoded at line 415. `eventTypeName` stands for
`eventlog.EventType(r.EventType).String()` (line 398), whose string table
lives in the (out-of-src) `internal/eventlog` package. -/
structure EventRecord where
  recordNumber : Nat
  eventID : Nat
  eventTypeName : String
  sourceName : String
  computerName : String
  deriving DecidableEq, Repr

/-- The prepared per-run configuration (the `logOpts` fields used by
`run`/`searchLog` after `prepare`). Compiled regexes are abstracted as
boolean matchers. -/
structure LogOpts where
  logList : List String
  typeList : List String
  idRangeList : Option (List IdRange)
  sourcePattern : Option (String → Bool)
  sourceExclude : Option (String → Bool)
  messagePattern : Option (String → Bool)
  messageExclude : Option (String → Bool)
  warnOver : Int
  critOver : Int
  returnContent : Bool
  noState : Bool
  failFirst : Bool

/-- Outcome of one `eventlog.ReadEventLog` attempt (lines 334-341):
success hands over the decoded record; `insufficient` is
`ERROR_INSUFFICIENT_BUFFER` reporting the required size via `nextSize`;
`invalidParam` is `errorInvalidParameter` (Errno 87); anything else is
`otherErr`. -/
inductive OsRead where
  | ok (r : EventRecord)
  | insufficient (nextSize : Nat)
  | invalidParam
  | otherErr (e : String)
  deriving DecidableEq, Repr

/-- Outcome of `getLastOffset(stateFile)` as `searchLog` consumes it
(lines 279-283): the file may be absent (`os.IsNotExist`), readable with a
parsed `int64` offset, or failing with any other error. -/
inductive LoadRes where
  | notExist
  | ok (s : Int)
  | errOther (e : String)
  deriving DecidableEq, Repr

/-- The OS and file-system collaborators of one `searchLog` call:
the persisted-state load result, the `OpenEventLog` outcome, the
oldest-record number and record count reported for the log, the
`ReadEventLog` behaviour (record number, buffer size, sequential-mode
flag), the message resolver (`getResourceMessage`; `none` models its
error), and the outcome of `writeLastOffset` (`none` = success). -/
structure SearchEnv where
  loadState : LoadRes
  openLog : Except String Unit
  oldnum : Nat
  num : Nat
  read : Nat → Nat → Bool → OsRead
  resolveMessage : EventRecord → Option String
  writeErr : Option String

/-- State of the record loop: tallies, accumulated content, `lastNumber`,
the current buffer size, and a ghost list of visited record numbers
(one entry per loop iteration that attempts a read). -/
structure LoopSt where
  warn : Int
  crit : Int
  lines : String
  lastNumber : Nat
  size : Nat
  visited : List Nat
  deriving DecidableEq, Repr

/-- How the record loop ends: `done` is normal exit or a `break`
(clean stop); `errOut` is the `return 0, 0, "", err` of line 345. -/
inductive LoopRes where
  | done (st : LoopSt)
  | errOut (e : String) (st : LoopSt)
  deriving DecidableEq, Repr

/-- Result of `searchLog`: the returned values, or an error return, or a
direct process termination by `log.Fatal`. -/
inductive SearchRes where
  | ok (warn crit : Int) (lines : String)
  | err (e : String)
  | fatal (e : String)
  deriving DecidableEq, Repr

/-- A `searchLog` outcome together with the offset value passed to
`writeLastOffset` (if a write was attempted) and the ghost visit list. -/
structure ScanOut where
  res : SearchRes
  written : Option Nat
  visited : List Nat
  deriving DecidableEq, Repr

/-! ### The per-record filter pipeline (lines 365-478) -/

/-- The placeholder substituted at line 467 when content return is
requested and the resolved message is empty. -/
def noMessageText : String :=
  "[mackerel-agent] No message resource found. Please make sure the event log occured on the server."

/-- `strings.Replace(message, "\n", "", -1)` (line 469). -/
def stripNewlines (s : String) : String :=
  ⟨s.toList.filter (fun c => c ≠ '\n')⟩

/-- One record through the filter pipeline: `none` mirrors the `continue`
statements; `some (dWarn, dCrit, line)` is a matched record's tally
increments (lines 471-478) and its content line (lines 465-470, empty
when `--return` is off). Failed message resolution is discarded
(`message, _ :=` at line 447), leaving an empty message. -/
def processRecord (opts : LogOpts) (resolve : EventRecord → Option String)
    (r : EventRecord) : Option (Int × Int × String) :=
  let idOk :=
    match opts.idRangeList with
    | none => true
    | some l => idFilter l (r.eventID % 65536)
  if !idOk then none else
  let tn := r.eventTypeName
  let typeOk := opts.typeList.isEmpty || opts.typeList.contains tn
  if !typeOk then none else
  let srcOk :=
    match opts.sourcePattern with
    | none => true
    | some p => p r.sourceName
  if !srcOk then none else
  let srcExOk :=
    match opts.sourceExclude with
    | none => true
    | some p => !p r.sourceName
  if !srcExOk then none else
  let message := (resolve r).getD ""
  let msgOk :=
    match opts.messagePattern with
    | none => true
    | some p => p message
  if !msgOk then none else
  let msgExOk :=
    match opts.messageExclude with
    | none => true
    | some p => !p message
  if !msgExOk then none else
  let line :=
    if opts.returnContent then
      let message := if message = "" then noMessageText else message
      r.sourceName ++ ":" ++ stripNewlines message ++ "\n"
    else ""
  let dCrit : Int := if tn = "Error" ∨ tn = "Audit Failure" then 1 else 0
  let dWarn : Int := if tn = "Warning" then 1 else 0
  some (dWarn, dCrit, line)

/-- Effect of one successfully read record on the loop state:
`lastNumber = r.RecordNumber` (line 372), then filter and tally. -/
def stepRecord (opts : LogOpts) (resolve : EventRecord → Option String)
    (r : EventRecord) (st : LoopSt) : LoopSt :=
  let st := { st with lastNumber := r.recordNumber }
  match processRecord opts resolve r with
  | none => st
  | some (dw, dc, line) =>
    { st with warn := st.warn + dw, crit := st.crit + dc, lines := st.lines ++ line }

/-! ### The record loop (lines 327-479) -/

/-- The `loop_events` loop. `fuel` is a structural bound on the remaining
iterations (any `fuel ≥ bound - i` gives the loop's behaviour). Each
iteration appends its index to the ghost `visited` list, reads with the
sequential flag iff `i == 0` (lines 329-332), and handles read errors as
lines 342-363 do: `ERROR_INSUFFICIENT_BUFFER` resizes the buffer to
`nextSize` and retries exactly once (a failing retry is logged and breaks);
`errorInvalidParameter` breaks cleanly; any other error returns it. -/
def scanLoop (opts : LogOpts) (read : Nat → Nat → Bool → OsRead)
    (resolve : EventRecord → Option String) (bound : Nat) :
    Nat → Nat → LoopSt → LoopRes
  | 0, _, st => .done st
  | fuel + 1, i, st =>
    if i < bound then
      let seq := i == 0
      let st1 := { st with visited := st.visited ++ [i] }
      match read i st1.size seq with
      | .ok r => scanLoop opts read resolve bound fuel (i + 1) (stepRecord opts resolve r st1)
      | .insufficient ns =>
        let st2 := { st1 with size := ns }
        match read i ns seq with
        | .ok r => scanLoop opts read resolve bound fuel (i + 1) (stepRecord opts resolve r st2)
        | _ => .done st2
      | .invalidParam => .done st1
      | .otherErr e => .errOut e st1
    else .done st

/-! ### Assembling `searchLog` -/

/-- Lines 277-284: the initial `recordNumber` from the state file.
With `--no-state` the state file is not consulted; a missing file leaves
`recordNumber = 0`; any other load error is returned; a loaded `int64`
offset is converted by Go's `uint32(s)`, i.e. taken mod `2^32`. -/
def initRecordNumber (opts : LogOpts) (loadState : LoadRes) : Except String Nat :=
  if opts.noState then .ok 0
  else
    match loadState with
    | .notExist => .ok 0
    | .ok s => .ok (s.emod (U32 : Int)).toNat
    | .errOther e => .error e

/-- `oldnum + num - 1` in `uint32` arithmetic: the newest record number
(used at lines 306 and 312). -/
def newestNumber (oldnum num : Nat) : Nat :=
  (oldnum + num + U32 - 1) % U32

/-- Lines 481-491: after the loop, persist `lastNumber` (unless
`--no-state`; a write failure is only logged), and suppress the counts
when `recordNumber == 0 && !opts.FailFirst`. `rn` is the mutated local
`recordNumber` (the loop's start index). -/
def searchFinish (opts : LogOpts) (rn : Nat) (res : LoopRes) : ScanOut :=
  match res with
  | .errOut e st => ⟨.err e, none, st.visited⟩
  | .done st =>
    let written := if opts.noState then none else some st.lastNumber
    if rn == 0 && !opts.failFirst then ⟨.ok 0 0 "", written, st.visited⟩
    else ⟨.ok st.warn st.crit st.lines, written, st.visited⟩

/-- Lines 311-479: the scanning window. If the persisted offset is at or
beyond `oldnum`, a scan at the newest record returns immediately;
otherwise the loop starts at `recordNumber + 1` with
`lastNumber = recordNumber` (lines 315-316). A persisted offset below
`oldnum` restarts from `oldnum` (line 318). The loop bound is
`oldnum + num` in `uint32` arithmetic. -/
def scanPhase (opts : LogOpts) (env : SearchEnv) (rn0 : Nat) : ScanOut :=
  let bound := (env.oldnum + env.num) % U32
  if env.oldnum ≤ rn0 then
    if rn0 == newestNumber env.oldnum env.num then ⟨.ok 0 0 "", none, []⟩
    else
      let rn := (rn0 + 1) % U32
      searchFinish opts rn
        (scanLoop opts env.read env.resolveMessage bound (bound + 1) rn ⟨0, 0, "", rn0, 1, []⟩)
  else
    searchFinish opts env.oldnum
      (scanLoop opts env.read env.resolveMessage bound (bound + 1) env.oldnum ⟨0, 0, "", 0, 1, []⟩)

/-- `searchLog` (lines 275-492). Load the prior offset; open the log
(`log.Fatal` on failure, modelled as `.fatal`); if there is no prior
offset and state is enabled and `--fail-first` is off, bootstrap: persist
the newest record number and return zero counts (lines 304-309) — note
the write error is returned here. Otherwise run the scanning window. -/
def searchLog (opts : LogOpts) (env : SearchEnv) : ScanOut :=
  match initRecordNumber opts env.loadState with
  | .error e => ⟨.err e, none, []⟩
  | .ok rn0 =>
    match env.openLog with
    | .error e => ⟨.fatal e, none, []⟩
    | .ok _ =>
      if rn0 == 0 && !opts.noState && !opts.failFirst then
        match env.writeErr with
        | some e => ⟨.err e, some (newestNumber env.oldnum env.num), []⟩
        | none => ⟨.ok 0 0 "", some (newestNumber env.oldnum env.num), []⟩
      else scanPhase opts env rn0

/-! ### The aggregator (`run`, lines 176-214) -/

/-- Monitoring-plugin statuses. -/
inductive Status where
  | ok
  | warning
  | critical
  | unknown
  deriving DecidableEq, Repr

/-- How the invocation ends: a checker result (name, status, message)
through the normal exit path, or a direct process exit (`log.Fatal`,
`os.Exit`). -/
inductive RunOutcome where
  | checker (st : Status) (msg : String)
  | exited (code : Nat) (msg : String)
  deriving DecidableEq, Repr

/-- Lines 203-213: build the summary message and apply the thresholds.
The two `if` statements are sequential, so `CRITICAL` overrides
`WARNING`; both comparisons are strict. -/
def aggregate (opts : LogOpts) (warnNum critNum : Int) (errorOverall : String) : RunOutcome :=
  let msg := toString warnNum ++ " warnings, " ++ toString critNum ++ " criticals."
  let msg := if errorOverall ≠ "" then msg ++ "\n" ++ errorOverall else msg
  let checkSt := Status.ok
  let checkSt := if warnNum > opts.warnOver then Status.warning else checkSt
  let checkSt := if critNum > opts.critOver then Status.critical else checkSt
  .checker checkSt msg

/-- The per-log loop of `run` (lines 192-202): scan each configured log,
turning a `searchLog` error into an immediate `Unknown`, a `log.Fatal`
into a process exit, and accumulating counts and content otherwise. -/
def runFold (opts : LogOpts) (env : String → SearchEnv) :
    List String → Int → Int → String → RunOutcome
  | [], warnNum, critNum, errorOverall => aggregate opts warnNum critNum errorOverall
  | lt :: rest, warnNum, critNum, errorOverall =>
    match (searchLog opts (env lt)).res with
    | .err e => .checker .unknown e
    | .fatal e => .exited 1 e
    | .ok w c lines =>
      runFold opts env rest (warnNum + w) (critNum + c)
        (errorOverall ++ if opts.returnContent then lines else "")

/-- `run` after `prepare` (lines 187-213), over an environment giving each
log name its OS collaborators. -/
def runModel (opts : LogOpts) (env : String → SearchEnv) : RunOutcome :=
  runFold opts env opts.logList 0 0 ""

/-- Total warning/critical counts over a list of logs, defined when every
log's scan returns normally. -/
def sumCounts (opts : LogOpts) (env : String → SearchEnv) :
    List String → Option (Int × Int)
  | [] => some (0, 0)
  | lt :: rest =>
    match (searchLog opts (env lt)).res with
    | .ok w c _ => (sumCounts opts env rest).map (fun p => (w + p.1, c + p.2))
    | _ => none

/-- Whether an invocation produced a checker result through the normal
exit path (as opposed to terminating the process directly). -/
def isCheckerOutcome : RunOutcome → Bool
  | .checker _ _ => true
  | .exited _ _ => false

/-! ### The state store (`getLastOffset` / `writeLastOffset`, lines 507-529) -/

/-- An abstract file system mapping state-file paths to their contents. -/
def StateFS := String → Option String

/-- The decimal digit characters. -/
def digitChar : Nat → Char
  | 0 => '0' | 1 => '1' | 2 => '2' | 3 => '3' | 4 => '4'
  | 5 => '5' | 6 => '6' | 7 => '7' | 8 => '8' | _ => '9'

/-- Numeric value of a decimal digit character. -/
def charToDigit (c : Char) : Nat := c.toNat - 48

/-- Decimal rendering of a natural number, as Go's `fmt.Sprintf("%d", _)`
produces it; `fuel` bounds the recursion (`fuel > n` suffices). -/
def natReprAux : Nat → Nat → List Char → List Char
  | 0, _, acc => acc
  | fuel + 1, n, acc =>
    if n < 10 then digitChar n :: acc
    else natReprAux fuel (n / 10) (digitChar (n % 10) :: acc)

/-- Decimal rendering of a natural number. -/
def natDecRepr (n : Nat) : List Char := natReprAux (n + 1) n []

/-- `fmt.Sprintf("%d", num)` for an `int64` value. -/
def intDecRepr (n : Int) : List Char :=
  if n < 0 then '-' :: natDecRepr n.natAbs else natDecRepr n.toNat

/-- The cutset of `strings.Trim(string(b), " \r\n")` at line 516. -/
def isCutChar (c : Char) : Bool := c = ' ' || c = '\r' || c = '\n'

/-- `strings.Trim(s, " \r\n")`: drop cutset characters from both ends. -/
def trimCutset (l : List Char) : List Char :=
  ((l.dropWhile isCutChar).reverse.dropWhile isCutChar).reverse

/-- The digit-run part of `strconv.ParseInt(s, 10, 64)` once the sign has
been consumed: at least one digit, and the value must fit in a signed
64-bit integer (`≤ 2^63` in magnitude when negative, `< 2^63` otherwise). -/
def parseGoUnsigned (digits : List Char) (neg : Bool) : Except String Int :=
  if digits.isEmpty || !digits.all isDigitChar then .error "invalid syntax"
  else
    let n := parseDigits digits
    if neg then
      if n ≤ 2 ^ 63 then .ok (-(n : Int)) else .error "value out of range"
    else if n < 2 ^ 63 then .ok (n : Int)
    else .error "value out of range"

/-- `strconv.ParseInt(s, 10, 64)`: an optional leading sign followed by
digits. -/
def parseGoInt64 (l : List Char) : Except String Int :=
  if l.head? = some '-' then parseGoUnsigned l.tail true
  else if l.head? = some '+' then parseGoUnsigned l.tail false
  else parseGoUnsigned l false

/-- Error cases of `getLastOffset`: the `os.Stat` not-exist case (line
508-511) and a content parse failure (line 516-519). -/
inductive GoErr where
  | notExist
  | parseErr (m : String)
  deriving DecidableEq, Repr

/-- `writeLastOffset(f, num)` (lines 523-529): write the offset as decimal
text, overwriting any prior value. -/
def writeLastOffset (fs : StateFS) (f : String) (num : Int) : StateFS :=
  fun g => if g = f then some ⟨intDecRepr num⟩ else fs g

/-- `getLastOffset(f)` (lines 507-521): a missing file yields
`(0, notExist)`; otherwise the contents are trimmed of `" \r\n"` and
parsed as a decimal `int64`. -/
def getLastOffset (fs : StateFS) (f : String) : Int × Option GoErr :=
  match fs f with
  | none => (0, some .notExist)
  | some content =>
    match parseGoInt64 (trimCutset content.toList) with
    | .ok i => (i, none)
    | .error m => (0, some (.parseErr m))

/-! ### Shared fixtures for concrete instantiations -/

/-- A default prepared configuration: one log, no filters, thresholds 0. -/
def baseOpts : LogOpts :=
  ⟨["Application"], [], none, none, none, none, none, 0, 0, false, false, false⟩

/-- A family of concrete decoded records indexed by record number. -/
def mkRec (n : Nat) : EventRecord :=
  ⟨n, 7, "Information", "SomeSource", "HOST"⟩

/-- Concrete fixture: an environment whose single log scans cleanly with
zero counts (empty window). -/
def quietEnv : SearchEnv :=
  ⟨.notExist, .ok (), 1, 0, fun i _ _ => .ok (mkRec i), fun _ => none, none⟩

/-- Concrete fixture: options that scan the whole log (`--no-state`). -/
def noStateOpts : LogOpts := { baseOpts with noState := true, failFirst := true }

/-- Concrete fixture: an environment whose `OpenEventLog` fails. -/
def openFailEnv : SearchEnv :=
  ⟨.notExist, .error "open eventlog failed", 1, 1,
    fun _ _ _ => .invalidParam, fun _ => none, none⟩

/-- Concrete fixture: a first-run environment whose state write fails. -/
def writeFailEnv : SearchEnv :=
  ⟨.notExist, .ok (), 1, 3, fun _ _ _ => .invalidParam,
    fun _ => none, some "write state failed"⟩

/-- Concrete fixture: a log with records 1..5 and persisted offset 3. -/
def scanEnv : SearchEnv :=
  ⟨.ok 3, .ok (), 1, 5, fun i _ _ => .ok (mkRec i), fun _ => none, none⟩

/-- `10 ^ (number of decimal digits of n)`, fuel-recursive alongside
`natReprAux`. -/
def tenPowAux : Nat → Nat → Nat
  | 0, _ => 1
  | fuel + 1, n => if n < 10 then 10 else 10 * tenPowAux fuel (n / 10)

/-! ### Claim C1: ID-filter semantics -/

theorem idFilterLoop_eq_foldl (id : Nat) (l : List IdRange) :
    ∀ f e, idFilterLoop id l f e = (l.foldl (specIdStep id) (f, e)).1 := by
  induction l with
  | nil => intro f e; rfl
  | cons idr rest ih =>
    intro f e
    by_cases h : idr.lo ≤ id ∧ id ≤ idr.hi <;>
      cases hb : idr.bang <;>
        simp [idFilterLoop, specIdStep, hb, h, ih, List.foldl] <;>
          cases e <;> simp [ih]

theorem idFilter_eq_specIdPass (l : List IdRange) (eventID : Nat) :
    idFilter l (eventID % 65536) = specIdPass l eventID := by
  unfold idFilter specIdPass
  exact idFilterLoop_eq_foldl (eventID % 65536) l false false

/-- C1: a decoded record with a configured ID-range list passes the ID
filter iff the spec's ordered evaluation (mask to the low 16 bits; a
non-negated range sets `sawPositiveRange` and can only turn `found` on; a
negated range forces `found` off inside its interval, and outside it turns
`found` on only if no positive range came earlier) ends with
`found = true`; in particular with ranges `[{1,10,false},{5,5,true}]`
masked ID 5 fails and 7 passes, and with only `[{5,5,true}]` 7 passes and
5 fails. -/
theorem idFilter_matches_spec_evaluation :
    (∀ (l : List IdRange) (eventID : Nat),
        idFilter l (eventID % 65536) = specIdPass l eventID)
  ∧ (∀ (opts : LogOpts) (resolve : EventRecord → Option String)
        (r : EventRecord) (l : List IdRange),
        opts.idRangeList = some l → specIdPass l r.eventID = false →
        processRecord opts resolve r = none)
  ∧ idFilter [⟨1, 10, false⟩, ⟨5, 5, true⟩] 5 = false
  ∧ idFilter [⟨1, 10, false⟩, ⟨5, 5, true⟩] 7 = true
  ∧ idFilter [⟨5, 5, true⟩] 7 = true
  ∧ idFilter [⟨5, 5, true⟩] 5 = false := by
  refine ⟨idFilter_eq_specIdPass, ?_, by decide, by decide, by decide, by decide⟩
  intro opts resolve r l hl hfail
  have hid : idFilter l (r.eventID % 65536) = false :=
    (idFilter_eq_specIdPass l r.eventID).trans hfail
  simp [processRecord, hl, hid]

/-- Witness for C1: a record with event ID 5 is discarded by the
configured list `[{5,5,true}]`. -/
theorem idFilter_matches_spec_evaluation_witness :
    processRecord { baseOpts with idRangeList := some [⟨5, 5, true⟩] }
      (fun _ => none) ⟨1, 5, "Error", "S", "C"⟩ = none :=
  idFilter_matches_spec_evaluation.2.1
    { baseOpts with idRangeList := some [⟨5, 5, true⟩] }
    (fun _ => none) ⟨1, 5, "Error", "S", "C"⟩ [⟨5, 5, true⟩] rfl (by decide)

/-! ### Claim C5: the ID-range parser -/

theorem parseBody_malformed {t : List Char} (h1 : matchRid1 t = false)
    (h2 : matchRid2 t = none) : parseBody t bang = .error "invalid id list" := by
  unfold parseBody
  rw [h1, h2]
  rfl

theorem parseToken_shape_false {t : List Char} (h : tokenShape t = false) :
    parseToken t = .error "invalid id list" := by
  unfold tokenShape at h
  simp only [Bool.or_eq_false_iff] at h
  unfold parseToken
  exact parseBody_malformed h.1 (Option.not_isSome_iff_eq_none.mp (by simp [h.2]))

theorem idRangeTokens_error_of_mem :
    ∀ (ts : List (List Char)) (t : List Char), t ∈ ts →
      parseToken t = .error "invalid id list" →
      ∃ e, idRangeTokens ts = .error e := by
  intro ts
  induction ts with
  | nil => intro t ht; exact absurd ht (List.not_mem_nil t)
  | cons u rest ih =>
    intro t ht hp
    rcases List.mem_cons.mp ht with he | hm
    · subst he
      exact ⟨"invalid id list", by rw [idRangeTokens, hp]⟩
    · cases hu : parseToken u with
      | error e => exact ⟨e, by rw [idRangeTokens, hu]⟩
      | ok r =>
        obtain ⟨e, hrest⟩ := ih t hm hp
        exact ⟨e, by rw [idRangeTokens, hu, hrest]⟩

/-- C5: the parser maps `"5"`, `"5-10"`, `"10-5"` (normalized), `"!7"`
and `"1,5-10,!7"` to the expected `IdRange` lists in order, and any input
containing a token that is not a decimal number, a dash-separated pair of
decimal numbers, or a `!`-prefixed form of those fails with a
configuration error. -/
theorem idRangeList_examples_and_rejection :
    idRangeList "5" = .ok [⟨5, 5, false⟩]
  ∧ idRangeList "5-10" = .ok [⟨5, 10, false⟩]
  ∧ idRangeList "10-5" = .ok [⟨5, 10, false⟩]
  ∧ idRangeList "!7" = .ok [⟨7, 7, true⟩]
  ∧ idRangeList "1,5-10,!7" = .ok [⟨1, 1, false⟩, ⟨5, 10, false⟩, ⟨7, 7, true⟩]
  ∧ ∀ (s : String) (t : List Char), t ∈ splitOnChar ',' s.toList →
      tokenShape t = false → ∃ e, idRangeList s = .error e := by
  refine ⟨rfl, rfl, rfl, rfl, rfl, ?_⟩
  intro s t hmem hshape
  exact idRangeTokens_error_of_mem _ t hmem (parseToken_shape_false hshape)

/-- Witness for C5: the input `"1,x,3"` contains the malformed token
`"x"`, so parsing fails. -/
theorem idRangeList_examples_and_rejection_witness :
    ∃ e, idRangeList "1,x,3" = .error e :=
  idRangeList_examples_and_rejection.2.2.2.2.2 "1,x,3" ['x'] (by decide) (by decide)

/-! ### Claim C10: failed message resolution -/

/-- C10: when the resolver fails, its error is discarded and the record is
processed exactly as if the message were the empty string; a configured
message-include pattern that rejects `""` therefore discards the record
before counting; and the fixed placeholder text is substituted only into
the returned content line (after the filters), never into filtering. -/
theorem processRecord_resolution_failure (opts : LogOpts)
    (resolve : EventRecord → Option String) (r : EventRecord)
    (h : resolve r = none) :
    processRecord opts resolve r = processRecord opts (fun _ => some "") r
  ∧ (∀ p, opts.messagePattern = some p → p "" = false →
      processRecord opts resolve r = none)
  ∧ (∀ dw dc line, opts.returnContent = true →
      processRecord opts resolve r = some (dw, dc, line) →
      line = r.sourceName ++ ":" ++ stripNewlines noMessageText ++ "\n") := by
  refine ⟨by simp [processRecord, h], ?_, ?_⟩
  · intro p hp hpe
    simp only [processRecord, h, hp, hpe, Option.getD]
    split
    · rfl
    · split
      · rfl
      · split
        · rfl
        · split
          · rfl
          · simp
  · intro dw dc line hrc hpr
    simp only [processRecord, h, hrc, Option.getD] at hpr
    split at hpr
    · exact absurd hpr (by simp)
    · split at hpr
      · exact absurd hpr (by simp)
      · split at hpr
        · exact absurd hpr (by simp)
        · split at hpr
          · exact absurd hpr (by simp)
          · split at hpr
            · exact absurd hpr (by simp)
            · split at hpr
              · exact absurd hpr (by simp)
              · simp only [Option.some.injEq, Prod.mk.injEq] at hpr
                exact hpr.2.2.symm

/-- Witness for C10: a record whose resolution fails is discarded when the
message-include pattern rejects the empty string. -/
theorem processRecord_resolution_failure_witness :
    processRecord { baseOpts with messagePattern := some (fun s => !(s == "")) }
      (fun _ => none) (mkRec 1) = none :=
  (processRecord_resolution_failure
    { baseOpts with messagePattern := some (fun s => !(s == "")) }
    (fun _ => none) (mkRec 1) rfl).2.1 (fun s => !(s == "")) rfl rfl

/-! ### Claim C4: threshold aggregation -/

theorem aggregate_status (opts : LogOpts) (w c : Int) (eo : String) :
    ∃ msg, aggregate opts w c eo = .checker
      (if c > opts.critOver then .critical
       else if w > opts.warnOver then .warning else .ok) msg := by
  exact ⟨_, rfl⟩

theorem runFold_sum (opts : LogOpts) (env : String → SearchEnv) :
    ∀ (ls : List String) (W C w0 c0 : Int) (eo : String),
      sumCounts opts env ls = some (W, C) →
      ∃ msg, runFold opts env ls w0 c0 eo = .checker
        (if c0 + C > opts.critOver then .critical
         else if w0 + W > opts.warnOver then .warning else .ok) msg := by
  intro ls
  induction ls with
  | nil =>
    intro W C w0 c0 eo h
    simp only [sumCounts, Option.some.injEq, Prod.mk.injEq] at h
    obtain ⟨hW, hC⟩ := h
    subst hW; subst hC
    simpa using aggregate_status opts w0 c0 eo
  | cons lt rest ih =>
    intro W C w0 c0 eo h
    simp only [sumCounts] at h
    cases hres : (searchLog opts (env lt)).res with
    | ok w c lines =>
      rw [hres] at h
      simp only [Option.map_eq_some'] at h
      obtain ⟨⟨W', C'⟩, hrest, hpair⟩ := h
      simp only [Prod.mk.injEq] at hpair
      obtain ⟨hW, hC⟩ := hpair
      subst hW; subst hC
      obtain ⟨msg, hm⟩ := ih W' C' (w0 + w) (c0 + c)
        (eo ++ if opts.returnContent then lines else "") hrest
      refine ⟨msg, ?_⟩
      have h1 : c0 + (c + C') = c0 + c + C' := by omega
      have h2 : w0 + (w + W') = w0 + w + W' := by omega
      rw [h1, h2]
      simp only [runFold, hres]
      exact hm
    | err e => rw [hres] at h; simp at h
    | fatal e => rw [hres] at h; simp at h

/-- C4: for a run that completes without error, with total warning count
`W`, total critical count `C` and thresholds `warnOver`/`critOver`, the
reported status is `CRITICAL` iff `C > critOver`, otherwise `WARNING` iff
`W > warnOver`, otherwise `OK`; both comparisons are strict and
`CRITICAL` takes precedence. -/
theorem run_threshold_status (opts : LogOpts) (env : String → SearchEnv)
    (W C : Int) (h : sumCounts opts env opts.logList = some (W, C)) :
    ∃ msg, runModel opts env = .checker
      (if C > opts.critOver then .critical
       else if W > opts.warnOver then .warning else .ok) msg := by
  have := runFold_sum opts env opts.logList W C 0 0 "" h
  simpa [runModel] using this

/-- Witness for C4: a clean run with totals `(0, 0)` and thresholds `0`
reports `OK`. -/
theorem run_threshold_status_witness :
    ∃ msg, runModel noStateOpts (fun _ => quietEnv) = .checker .ok msg := by
  have h := run_threshold_status noStateOpts (fun _ => quietEnv) 0 0 (by decide)
  simpa [noStateOpts, baseOpts] using h

/-! ### Claim C6: read-error handling in the record loop -/

/-- C6: during the record loop, an `errorInvalidParameter` failure stops
the scan cleanly with the tallies intact; an `ERROR_INSUFFICIENT_BUFFER`
failure is retried exactly once with the buffer resized to the reported
`nextSize` (a failing retry is logged and breaks); any other read failure
aborts the log's scan with an error return, which the caller reports as
an `Unknown` checker outcome; and a cleanly stopped scan still persists
`lastNumber`. -/
theorem scanLoop_read_error_handling :
    (∀ (opts : LogOpts) (read : Nat → Nat → Bool → OsRead) resolve bound fuel i
        (st : LoopSt), i < bound →
        read i st.size (i == 0) = .invalidParam →
        scanLoop opts read resolve bound (fuel + 1) i st =
          .done { st with visited := st.visited ++ [i] })
  ∧ (∀ (opts : LogOpts) (read : Nat → Nat → Bool → OsRead) resolve bound fuel i
        (st : LoopSt) ns r, i < bound →
        read i st.size (i == 0) = .insufficient ns →
        read i ns (i == 0) = .ok r →
        scanLoop opts read resolve bound (fuel + 1) i st =
          scanLoop opts read resolve bound fuel (i + 1)
            (stepRecord opts resolve r
              { st with visited := st.visited ++ [i], size := ns }))
  ∧ (∀ (opts : LogOpts) (read : Nat → Nat → Bool → OsRead) resolve bound fuel i
        (st : LoopSt) ns e, i < bound →
        read i st.size (i == 0) = .insufficient ns →
        read i ns (i == 0) = .otherErr e →
        scanLoop opts read resolve bound (fuel + 1) i st =
          .done { st with visited := st.visited ++ [i], size := ns })
  ∧ (∀ (opts : LogOpts) (read : Nat → Nat → Bool → OsRead) resolve bound fuel i
        (st : LoopSt) e, i < bound →
        read i st.size (i == 0) = .otherErr e →
        scanLoop opts read resolve bound (fuel + 1) i st =
          .errOut e { st with visited := st.visited ++ [i] })
  ∧ (∀ (opts : LogOpts) rn st e,
        (searchFinish opts rn (.errOut e st)).res = .err e)
  ∧ (∀ (opts : LogOpts) rn st, opts.noState = false →
        (searchFinish opts rn (.done st)).written = some st.lastNumber)
  ∧ (∀ (opts : LogOpts) (env : String → SearchEnv) lt rest w c eo e,
        (searchLog opts (env lt)).res = .err e →
        runFold opts env (lt :: rest) w c eo = .checker .unknown e) := by
  refine ⟨?_, ?_, ?_, ?_, ?_, ?_, ?_⟩
  · intro opts read resolve bound fuel i st hi hr
    rw [scanLoop, if_pos hi]
    simp only [hr]
  · intro opts read resolve bound fuel i st ns r hi hr1 hr2
    rw [scanLoop, if_pos hi]
    simp only [hr1, hr2]
  · intro opts read resolve bound fuel i st ns e hi hr1 hr2
    rw [scanLoop, if_pos hi]
    simp only [hr1, hr2]
  · intro opts read resolve bound fuel i st e hi hr
    rw [scanLoop, if_pos hi]
    simp only [hr]
  · intro opts rn st e
    rfl
  · intro opts rn st h
    simp only [searchFinish, h]
    split <;> simp
  · intro opts env lt rest w c eo e h
    rw [runFold, h]

/-- Witness for C6: a loop whose first read reports `invalidParam` stops
cleanly after visiting index 0. -/
theorem scanLoop_read_error_handling_witness :
    scanLoop baseOpts (fun _ _ _ => .invalidParam) (fun _ => none) 5 1 0
      ⟨0, 0, "", 0, 1, []⟩ = .done ⟨0, 0, "", 0, 1, [0]⟩ := by
  have h := scanLoop_read_error_handling.1 baseOpts
    (fun _ _ _ => .invalidParam) (fun _ => none) 5 0 0
    ⟨0, 0, "", 0, 1, []⟩ (by decide) rfl
  simpa using h

/-! ### Claim C7: log-open failure (corrected) -/

/-- Counterexample to C7: when opening the log fails, the invocation does
not report `Unknown` through the normal exit path — `log.Fatal` (line 289)
terminates the process directly with exit code 1. -/
theorem open_failure_not_reported_unknown :
    runModel noStateOpts (fun _ => openFailEnv) =
      .exited 1 "open eventlog failed"
  ∧ isCheckerOutcome (runModel noStateOpts (fun _ => openFailEnv)) = false :=
  ⟨rfl, rfl⟩

/-- C7 (amended): a failure to open the named event log terminates the
process directly via `log.Fatal` (modelled as `.fatal`, surfaced as a
direct exit with code 1), rather than being returned as an error value
and reported as an `Unknown` outcome. -/
theorem searchLog_open_failure_fatal (opts : LogOpts) (env : SearchEnv)
    (e : String) (hopen : env.openLog = .error e)
    (hload : opts.noState = true ∨ env.loadState = .notExist ∨
      ∃ s, env.loadState = .ok s) :
    searchLog opts env = ⟨.fatal e, none, []⟩
  ∧ ∀ (envf : String → SearchEnv) lt rest w c eo, envf lt = env →
      runFold opts envf (lt :: rest) w c eo = .exited 1 e := by
  have h1 : searchLog opts env = ⟨.fatal e, none, []⟩ := by
    unfold searchLog initRecordNumber
    rcases hload with h | h | ⟨s, h⟩
    · rw [if_pos h, hopen]
    · by_cases hn : opts.noState
      · rw [if_pos hn, hopen]
      · rw [if_neg hn, h]
        simp only [hopen]
    · by_cases hn : opts.noState
      · rw [if_pos hn, hopen]
      · rw [if_neg hn, h]
        simp only [hopen]
  refine ⟨h1, ?_⟩
  intro envf lt rest w c eo henv
  rw [runFold, henv, h1]

/-- Witness for C7's amended theorem at a concrete environment. -/
theorem searchLog_open_failure_fatal_witness :
    searchLog noStateOpts openFailEnv = ⟨.fatal "open eventlog failed", none, []⟩ :=
  (searchLog_open_failure_fatal noStateOpts openFailEnv
    "open eventlog failed" rfl (Or.inl rfl)).1

/-! ### Claim C8: state-write failure (corrected) -/

/-- Counterexample to C8: on the first-run bootstrap path the state-write
error is returned (`return 0, 0, "", err` at line 307), so instead of the
zero-count OK result the run reports `Unknown` — the write failure does
change the check result. -/
theorem bootstrap_write_error_changes_result :
    (searchLog baseOpts writeFailEnv).res = .err "write state failed"
  ∧ runModel baseOpts (fun _ => writeFailEnv) =
      .checker .unknown "write state failed" :=
  ⟨rfl, rfl⟩

/-- C8 (amended): on the end-of-scan persistence path (any run that does
not take the first-run bootstrap branch) a failure of the state write is
only logged: the scan's result — counts, status, content and the ghost
visit list — is identical to that of a run whose write succeeds. On the
bootstrap path, however, the write error is returned and surfaces as
`Unknown`. -/
theorem searchLog_write_error_ignored_after_scan (opts : LogOpts)
    (env : SearchEnv) (e : String)
    (h : opts.noState = true ∨ opts.failFirst = true ∨
      (∃ s, env.loadState = .ok s ∧ (Int.emod s (U32 : Int)).toNat ≠ 0) ∨
      (∃ e2, env.loadState = .errOther e2)) :
    searchLog opts { env with writeErr := some e } =
      searchLog opts { env with writeErr := none } := by
  have hinit : ∀ x, initRecordNumber opts ({ env with writeErr := x }).loadState =
      initRecordNumber opts env.loadState := fun _ => rfl
  have hphase : ∀ x rn0, scanPhase opts { env with writeErr := x } rn0 =
      scanPhase opts env rn0 := fun _ _ => rfl
  unfold searchLog
  rw [hinit, hinit]
  cases hload : initRecordNumber opts env.loadState with
  | error e0 => rfl
  | ok rn0 =>
    cases hopen : env.openLog with
    | error e0 => rfl
    | ok u =>
      have hcond : (rn0 == 0 && !opts.noState && !opts.failFirst) = false := by
        rcases h with hns | hff | ⟨s, hs, hsn⟩ | ⟨e2, he2⟩
        · simp [hns]
        · simp [hff]
        · by_cases hn : opts.noState
          · simp [hn]
          · have : rn0 ≠ 0 := by
              unfold initRecordNumber at hload
              rw [if_neg hn, hs] at hload
              simp only [Except.ok.injEq] at hload
              omega
            simp [this]
        · by_cases hn : opts.noState
          · simp [hn]
          · unfold initRecordNumber at hload
            rw [if_neg hn, he2] at hload
            exact absurd hload (by simp)
      simp only [hcond, Bool.false_eq_true, if_false]
      rfl

/-- Witness for C8's amended theorem: with `--fail-first` set (no
bootstrap), a failing and a succeeding state write give the same scan
result. -/
theorem searchLog_write_error_ignored_after_scan_witness :
    searchLog noStateOpts { quietEnv with writeErr := some "disk full" } =
      searchLog noStateOpts { quietEnv with writeErr := none } :=
  searchLog_write_error_ignored_after_scan noStateOpts quietEnv "disk full"
    (Or.inl rfl)

/-! ### Claim C3: first-run bootstrap -/

/-- C3: on a log with no prior persisted offset, with state persistence
enabled and `--fail-first` off, the scan reads no records (the ghost visit
list is empty), persists the newest record number `oldnum + num - 1` as
the baseline, and returns zero warning and critical counts. -/
theorem searchLog_bootstrap (opts : LogOpts) (env : SearchEnv)
    (h1 : opts.noState = false) (h2 : opts.failFirst = false)
    (h3 : env.loadState = .notExist) (h4 : env.openLog = .ok ())
    (h5 : env.writeErr = none)
    (h6 : 0 < env.oldnum + env.num) (h7 : env.oldnum + env.num ≤ U32) :
    searchLog opts env = ⟨.ok 0 0 "", some (env.oldnum + env.num - 1), []⟩ := by
  have hinit : initRecordNumber opts env.loadState = .ok 0 := by
    unfold initRecordNumber
    rw [if_neg (by simp [h1]), h3]
  have hnewest : newestNumber env.oldnum env.num = env.oldnum + env.num - 1 := by
    unfold newestNumber U32
    unfold U32 at h7
    omega
  unfold searchLog
  rw [hinit, h4, h5]
  simp only [h1, h2, hnewest]
  rfl

/-- Witness for C3 at a concrete first-run environment: the newest record
number `1 + 3 - 1 = 3` is persisted and nothing is visited. -/
theorem searchLog_bootstrap_witness :
    searchLog baseOpts { writeFailEnv with writeErr := none } =
      ⟨.ok 0 0 "", some 3, []⟩ := by
  have h := searchLog_bootstrap baseOpts { writeFailEnv with writeErr := none }
    rfl rfl rfl rfl rfl (by decide) (by decide)
  simpa using h

/-! ### Claim C2: the scanning window and rotation recovery -/

theorem stepRecord_visited (opts : LogOpts) (resolve : EventRecord → Option String)
    (r : EventRecord) (st : LoopSt) :
    (stepRecord opts resolve r st).visited = st.visited := by
  unfold stepRecord
  cases processRecord opts resolve r with
  | none => rfl
  | some p =>
    obtain ⟨dw, dc, line⟩ := p
    rfl

theorem searchFinish_visited_done (opts : LogOpts) (rn : Nat) (st : LoopSt) :
    (searchFinish opts rn (.done st)).visited = st.visited := by
  simp only [searchFinish]
  split <;> rfl

theorem scanLoop_all_ok (opts : LogOpts) (read : Nat → Nat → Bool → OsRead)
    (resolve : EventRecord → Option String) (recf : Nat → EventRecord)
    (hread : ∀ i sz seq, read i sz seq = .ok (recf i)) (bound : Nat) :
    ∀ (fuel i : Nat) (st : LoopSt), bound ≤ i + fuel →
      ∃ st2, scanLoop opts read resolve bound fuel i st = .done st2 ∧
        st2.visited = st.visited ++ List.range' i (bound - i) := by
  intro fuel
  induction fuel with
  | zero =>
    intro i st h
    have hz : bound - i = 0 := by omega
    exact ⟨st, rfl, by simp [hz]⟩
  | succ fuel ih =>
    intro i st h
    by_cases hi : i < bound
    · rw [scanLoop, if_pos hi]
      simp only [hread]
      obtain ⟨st2, hloop, hvis⟩ := ih (i + 1)
        (stepRecord opts resolve (recf i) { st with visited := st.visited ++ [i] })
        (by omega)
      refine ⟨st2, hloop, ?_⟩
      rw [hvis, stepRecord_visited]
      have hbi : bound - i = (bound - (i + 1)) + 1 := by omega
      rw [hbi, List.range']
      simp
    · rw [scanLoop, if_neg hi]
      have hz : bound - i = 0 := by omega
      exact ⟨st, rfl, by simp [hz]⟩

/-- C2: for a scan with a prior persisted offset: if the offset is at or
beyond the oldest record and below the newest, the loop visits exactly
record numbers `offset+1` through `oldnum+num-1`; if the offset is below
the oldest record (log cleared/rotated), the scan restarts from `oldnum`
and visits `oldnum` through `oldnum+num-1`, returning normally instead of
failing; and if the offset already equals the newest record
`oldnum+num-1`, no records are read and zero counts are returned. -/
theorem searchLog_scanning_window (opts : LogOpts) (env : SearchEnv) (s : Int)
    (recf : Nat → EventRecord)
    (h1 : opts.noState = false)
    (h2 : env.loadState = .ok s)
    (h3 : env.openLog = .ok ())
    (h4 : 0 < s) (h5 : s < (U32 : Int))
    (h6 : 0 < env.oldnum) (h7 : 0 < env.num)
    (h8 : env.oldnum + env.num < U32)
    (h9 : ∀ i sz seq, env.read i sz seq = .ok (recf i)) :
    (env.oldnum ≤ s.toNat → s.toNat + 1 < env.oldnum + env.num →
      (searchLog opts env).visited =
        List.range' (s.toNat + 1) (env.oldnum + env.num - 1 - s.toNat))
  ∧ (s.toNat < env.oldnum →
      (searchLog opts env).visited = List.range' env.oldnum env.num
      ∧ ∃ w c l, (searchLog opts env).res = .ok w c l)
  ∧ (env.oldnum ≤ s.toNat → s.toNat = env.oldnum + env.num - 1 →
      searchLog opts env = ⟨.ok 0 0 "", none, []⟩) := by
  have hU : (0 : Int) ≤ s := le_of_lt h4
  have hemod : s.emod (U32 : Int) = s := Int.emod_eq_of_lt hU h5
  have hinit : initRecordNumber opts env.loadState = .ok s.toNat := by
    simp [initRecordNumber, h1, h2, hemod]
  have hsn : s.toNat ≠ 0 := by omega
  have hcond : (s.toNat == 0 && !opts.noState && !opts.failFirst) = false := by
    simp [hsn]
  have hbound : (env.oldnum + env.num) % U32 = env.oldnum + env.num :=
    Nat.mod_eq_of_lt h8
  have hnewest : newestNumber env.oldnum env.num = env.oldnum + env.num - 1 := by
    unfold newestNumber
    unfold U32 at h8 ⊢
    omega
  have hsearch : searchLog opts env = scanPhase opts env s.toNat := by
    unfold searchLog
    rw [hinit, h3]
    simp only [hcond, Bool.false_eq_true, if_false]
  refine ⟨?_, ?_, ?_⟩
  · intro ho hlt
    have hne : (s.toNat == newestNumber env.oldnum env.num) = false := by
      rw [hnewest]
      simp only [beq_eq_false_iff_ne, ne_eq]
      omega
    have hrn : (s.toNat + 1) % U32 = s.toNat + 1 := by
      apply Nat.mod_eq_of_lt
      unfold U32 at h8 ⊢
      omega
    rw [hsearch]
    unfold scanPhase
    rw [if_pos ho, hne, hbound, hrn]
    simp only [Bool.false_eq_true, if_false]
    obtain ⟨st2, hloop, hvis⟩ := scanLoop_all_ok opts env.read env.resolveMessage
      recf h9 (env.oldnum + env.num) (env.oldnum + env.num + 1) (s.toNat + 1)
      ⟨0, 0, "", s.toNat, 1, []⟩ (by omega)
    rw [hloop, searchFinish_visited_done, hvis]
    simp only [List.nil_append]
    have harg : env.oldnum + env.num - (s.toNat + 1) =
        env.oldnum + env.num - 1 - s.toNat := by omega
    rw [harg]
  · intro hlt
    have hno : ¬ env.oldnum ≤ s.toNat := by omega
    rw [hsearch]
    unfold scanPhase
    rw [if_neg hno, hbound]
    obtain ⟨st2, hloop, hvis⟩ := scanLoop_all_ok opts env.read env.resolveMessage
      recf h9 (env.oldnum + env.num) (env.oldnum + env.num + 1) env.oldnum
      ⟨0, 0, "", 0, 1, []⟩ (by omega)
    rw [hloop]
    constructor
    · rw [searchFinish_visited_done, hvis]
      simp only [List.nil_append]
      have harg : env.oldnum + env.num - env.oldnum = env.num := by omega
      rw [harg]
    · refine ⟨st2.warn, st2.crit, st2.lines, ?_⟩
      simp only [searchFinish]
      rw [if_neg (by simp [Nat.pos_iff_ne_zero.mp h6])]
  · intro ho heq
    have he : (s.toNat == newestNumber env.oldnum env.num) = true := by
      rw [hnewest]
      simp only [beq_iff_eq]
      omega
    rw [hsearch]
    unfold scanPhase
    rw [if_pos ho, he]
    simp

/-- Witness for C2: with oldest record 1, 5 records and persisted offset
3, the scan visits exactly record numbers 4 and 5. -/
theorem searchLog_scanning_window_witness :
    (searchLog baseOpts scanEnv).visited = List.range' 4 2 :=
  (searchLog_scanning_window baseOpts scanEnv 3 mkRec rfl rfl rfl
    (by decide) (by decide) (by decide) (by decide) (by decide)
    (fun _ _ _ => rfl)).1 (by decide) (by decide)

/-! ### Claim C9: state-store round trip -/

theorem digitChar_toNat {d : Nat} (h : d < 10) :
    (digitChar d).toNat - 48 = d := by
  interval_cases d <;> rfl

theorem isDigitChar_digitChar {d : Nat} (h : d < 10) :
    isDigitChar (digitChar d) = true := by
  interval_cases d <;> rfl

theorem foldl_natReprAux :
    ∀ (fuel n : Nat) (acc : List Char) (a : Nat), n < fuel →
      List.foldl (fun a c => a * 10 + (c.toNat - 48)) a (natReprAux fuel n acc) =
        List.foldl (fun a c => a * 10 + (c.toNat - 48))
          (a * tenPowAux fuel n + n) acc := by
  intro fuel
  induction fuel with
  | zero => intro n acc a h; exact absurd h (Nat.not_lt_zero n)
  | succ fuel ih =>
    intro n acc a h
    by_cases h10 : n < 10
    · rw [natReprAux, if_pos h10, tenPowAux, if_pos h10]
      simp only [List.foldl]
      rw [digitChar_toNat h10]
    · rw [natReprAux, if_neg h10, tenPowAux, if_neg h10]
      have hq : n / 10 < fuel := by
        have := Nat.div_lt_self (by omega : 0 < n) (by omega : 1 < 10)
        omega
      rw [ih (n / 10) (digitChar (n % 10) :: acc) a hq]
      simp only [List.foldl]
      rw [digitChar_toNat (Nat.mod_lt n (by omega))]
      have hqr : n / 10 * 10 + n % 10 = n := by omega
      have key : ∀ (T q r : Nat),
          (a * T + q) * 10 + r = a * (10 * T) + (q * 10 + r) := by
        intro T q r
        ring
      rw [key, hqr]

theorem natReprAux_digits :
    ∀ (fuel n : Nat) (acc : List Char),
      (∀ c ∈ acc, isDigitChar c = true) →
      ∀ c ∈ natReprAux fuel n acc, isDigitChar c = true := by
  intro fuel
  induction fuel with
  | zero => intro n acc hacc; exact hacc
  | succ fuel ih =>
    intro n acc hacc c hc
    by_cases h10 : n < 10
    · rw [natReprAux, if_pos h10] at hc
      rcases List.mem_cons.mp hc with he | hm
      · subst he; exact isDigitChar_digitChar h10
      · exact hacc c hm
    · rw [natReprAux, if_neg h10] at hc
      refine ih (n / 10) (digitChar (n % 10) :: acc) ?_ c hc
      intro c2 hc2
      rcases List.mem_cons.mp hc2 with he | hm
      · subst he; exact isDigitChar_digitChar (Nat.mod_lt n (by omega))
      · exact hacc c2 hm

theorem natReprAux_ne_nil :
    ∀ (fuel n : Nat) (acc : List Char), fuel ≠ 0 ∨ acc ≠ [] →
      natReprAux fuel n acc ≠ [] := by
  intro fuel
  induction fuel with
  | zero =>
    intro n acc h
    rcases h with h | h
    · exact absurd rfl h
    · exact h
  | succ fuel ih =>
    intro n acc h
    by_cases h10 : n < 10
    · rw [natReprAux, if_pos h10]
      simp
    · rw [natReprAux, if_neg h10]
      exact ih (n / 10) (digitChar (n % 10) :: acc) (Or.inr (by simp))

theorem natDecRepr_ne_nil (n : Nat) : natDecRepr n ≠ [] :=
  natReprAux_ne_nil (n + 1) n [] (Or.inl (by omega))

theorem natDecRepr_digits (n : Nat) :
    ∀ c ∈ natDecRepr n, isDigitChar c = true :=
  natReprAux_digits (n + 1) n [] (by intro c hc; exact absurd hc (List.not_mem_nil c))

theorem parseDigits_natDecRepr (n : Nat) : parseDigits (natDecRepr n) = n := by
  unfold parseDigits natDecRepr
  rw [foldl_natReprAux (n + 1) n [] 0 (Nat.lt_succ_self n)]
  simp

theorem dropWhile_eq_self {p : Char → Bool} {l : List Char}
    (h : ∀ c ∈ l, p c = false) : l.dropWhile p = l := by
  cases l with
  | nil => rfl
  | cons c r =>
    rw [List.dropWhile_cons, h c (List.mem_cons_self c r)]
    simp

theorem trimCutset_eq_self {l : List Char} (h : ∀ c ∈ l, isCutChar c = false) :
    trimCutset l = l := by
  unfold trimCutset
  rw [dropWhile_eq_self h,
    dropWhile_eq_self (fun c hc => h c (List.mem_reverse.mp hc)),
    List.reverse_reverse]

theorem isCutChar_of_digit {c : Char} (h : isDigitChar c = true) :
    isCutChar c = false := by
  unfold isCutChar
  simp only [Bool.or_eq_false_iff, decide_eq_false_iff_not]
  refine ⟨⟨?_, ?_⟩, ?_⟩ <;>
    · intro he
      subst he
      exact absurd h (by decide)

theorem trimCutset_intDecRepr (n : Int) :
    trimCutset (intDecRepr n) = intDecRepr n := by
  apply trimCutset_eq_self
  intro c hc
  unfold intDecRepr at hc
  by_cases hn : n < 0
  · rw [if_pos hn] at hc
    rcases List.mem_cons.mp hc with he | hm
    · subst he; rfl
    · exact isCutChar_of_digit (natDecRepr_digits _ c hm)
  · rw [if_neg hn] at hc
    exact isCutChar_of_digit (natDecRepr_digits _ c hc)

theorem parseGoInt64_intDecRepr {n : Int} (h1 : -(2 ^ 63) ≤ n)
    (h2 : n < 2 ^ 63) : parseGoInt64 (intDecRepr n) = .ok n := by
  by_cases hn : n < 0
  · unfold intDecRepr
    rw [if_pos hn]
    unfold parseGoInt64
    simp only [List.head?_cons, List.tail_cons]
    rw [if_pos trivial]
    unfold parseGoUnsigned
    rw [if_neg (by
      simp only [Bool.or_eq_true, Bool.not_eq_true', not_or]
      constructor
      · simp [natDecRepr_ne_nil n.natAbs]
      · simp only [Bool.not_eq_false, List.all_eq_true]
        intro c hc
        exact natDecRepr_digits n.natAbs c hc)]
    rw [if_pos rfl]
    rw [parseDigits_natDecRepr]
    rw [if_pos (by omega : n.natAbs ≤ 2 ^ 63)]
    congr 1
    omega
  · unfold intDecRepr
    rw [if_neg hn]
    cases hl : natDecRepr n.toNat with
    | nil => exact absurd hl (natDecRepr_ne_nil n.toNat)
    | cons c cs =>
      have hcd : isDigitChar c = true :=
        natDecRepr_digits n.toNat c (by rw [hl]; exact List.mem_cons_self c cs)
      unfold parseGoInt64
      simp only [List.head?_cons, List.tail_cons]
      rw [if_neg (by
        simp only [Option.some.injEq]
        intro he; subst he; exact absurd hcd (by decide))]
      rw [if_neg (by
        simp only [Option.some.injEq]
        intro he; subst he; exact absurd hcd (by decide))]
      unfold parseGoUnsigned
      rw [if_neg (by
        simp only [Bool.or_eq_true, Bool.not_eq_true', not_or]
        constructor
        · simp
        · simp only [Bool.not_eq_false, List.all_eq_true]
          intro c2 hc2
          exact natDecRepr_digits n.toNat c2 (by rw [hl]; exact hc2))]
      rw [← hl, parseDigits_natDecRepr]
      rw [if_neg (by simp)]
      rw [if_pos (by omega : n.toNat < 2 ^ 63)]
      congr 1
      omega

/-- C9: state persistence round-trips — writing any `int64` offset with
`writeLastOffset` and loading the same state file with `getLastOffset`
returns exactly that offset with no error; loading a state file that does
not exist returns the normal not-found outcome `(0, notExist)` rather
than a fault. -/
theorem state_offset_roundtrip :
    (∀ (fs : StateFS) (f : String) (n : Int),
        -(2 ^ 63) ≤ n → n < 2 ^ 63 →
        getLastOffset (writeLastOffset fs f n) f = (n, none))
  ∧ (∀ (fs : StateFS) (f : String), fs f = none →
        getLastOffset fs f = (0, some .notExist)) := by
  constructor
  · intro fs f n h1 h2
    simp only [getLastOffset, writeLastOffset, if_true]
    rw [show (⟨intDecRepr n⟩ : String).toList = intDecRepr n from rfl]
    rw [trimCutset_intDecRepr, parseGoInt64_intDecRepr h1 h2]
  · intro fs f h
    unfold getLastOffset
    rw [h]

/-- Witness for C9: offset 12345 round-trips through an empty file
system. -/
theorem state_offset_roundtrip_witness :
    getLastOffset (writeLastOffset (fun _ => none) "Application-state" 12345)
      "Application-state" = (12345, none) :=
  state_offset_roundtrip.1 (fun _ => none) "Application-state" 12345
    (by norm_num) (by norm_num)
